import Mathlib

/-!
Verification of the result-normalization and failure-isolation layer of the
`@webstir-io/vitest-testing` provider (`src/provider.ts`), as a shallow
embedding in Lean.

Conventions of the embedding:
* JavaScript values that may be `undefined`/`null` are modelled as `Option`.
* JavaScript numbers used for durations are modelled as `ℚ` (the code only
  adds, compares and clamps them, so exact rational arithmetic is faithful).
* `String.prototype.trim` is modelled by `jsTrim` (drop whitespace from both
  ends of the character list).
* The engine (`startVitest`), the module loader, `require.resolve`,
  `path.resolve` and the wall clock are external effects; they are modelled
  by an explicit environment record `VitestWorld` whose fields record what
  each external call would return, and `process.env` by `EnvState`.
* Arbitrary JavaScript values (thrown errors, unhandled errors) are modelled
  by `JSValue`: an `Error` instance with `message`/`stack`, a plain string,
  or any other value together with its `String(v)` coercion and its
  `JSON.stringify(v, null, 2)` result (`none` when stringification throws).
-/

namespace Webstir

/-- Model of JavaScript `String.prototype.trim`: remove whitespace from both
ends of the string. -/
def jsTrim (s : String) : String :=
  ⟨((s.data.dropWhile Char.isWhitespace).reverse.dropWhile Char.isWhitespace).reverse⟩

/-- `TestRunResult` from `@webstir-io/webstir-testing`: one normalized test
outcome (or one synthetic entry). -/
structure TestRunResult where
  name : String
  file : String
  passed : Bool
  message : Option String
  durationMs : ℚ
deriving DecidableEq, Repr

/-- `RunnerSummary` from `@webstir-io/webstir-testing`: the normalized
per-invocation aggregate. -/
structure RunnerSummary where
  passed : Nat
  failed : Nat
  total : Nat
  durationMs : ℚ
  results : List TestRunResult
deriving DecidableEq, Repr

/-- One entry of a `VitestTaskError.stacks` array (`provider.ts` line 33). -/
structure VitestStackEntry where
  message : Option String
  stack : Option String
deriving DecidableEq, Repr

/-- `VitestTaskError` (`provider.ts` lines 30-34).  The `stacks` field is
`Option` (absent vs present array) and its entries may themselves be null. -/
structure VitestTaskError where
  message : Option String
  stack : Option String
  stacks' : Option (List (Option VitestStackEntry))
deriving DecidableEq, Repr

/-- The `result` field of a `VitestTaskResult` (`provider.ts` lines 23-27). -/
structure TaskResultInfo where
  state : Option String
  duration : Option ℚ
  errors : Option (List (Option VitestTaskError))
deriving DecidableEq, Repr

/-- `VitestTaskResult` (`provider.ts` lines 18-28).  The extra constructor
`null` models a null/undefined entry inside a `tasks` array, which the code
skips with `if (!task) continue`. -/
inductive VitestTask : Type where
  | null : VitestTask
  | mk (type : Option String) (name : Option String) (mode : Option String)
      (tasks : Option (List VitestTask)) (result : Option TaskResultInfo) : VitestTask

/-- The `result` field of a `VitestModuleResult` (`provider.ts` lines 11-14). -/
structure ModuleResultInfo where
  state : Option String
  duration : Option ℚ
deriving DecidableEq, Repr

/-- `VitestModuleResult` (`provider.ts` lines 9-16). -/
structure VitestModuleResult where
  filepath : Option String
  result : Option ModuleResultInfo
  tasks : Option (List VitestTask)

/-- An arbitrary JavaScript value as observed by the provider: an `Error`
instance, a plain string, or anything else together with its `String(v)`
coercion and its `JSON.stringify(v, null, 2)` result (`none` when
stringification throws). -/
inductive JSValue : Type where
  | errObj (message : String) (stack : Option String) : JSValue
  | str (s : String) : JSValue
  | other (stringRep : String) (jsonRep : Option String) : JSValue
deriving DecidableEq, Repr

/-- `createEmptySummary` (`provider.ts` lines 80-88). -/
def createEmptySummary : RunnerSummary :=
  { passed := 0, failed := 0, total := 0, durationMs := 0, results := [] }

/-- `createFailureSummary` (`provider.ts` lines 90-117): one synthetic failing
result per requested file, or a single placeholder-file result when the file
list is empty. -/
def createFailureSummary (files : List String) (message : String) : RunnerSummary :=
  let normalizedMessage := jsTrim message
  let results : List TestRunResult := files.map fun file =>
    { name := "[vitest provider]", file := file, passed := false,
      message := some normalizedMessage, durationMs := 0 }
  let finalResults :=
    if results.length = 0 then
      results ++ [{ name := "[vitest provider]", file := "[vitest]", passed := false,
                    message := some normalizedMessage, durationMs := 0 }]
    else results
  { passed := 0, failed := finalResults.length, total := finalResults.length,
    durationMs := 0, results := finalResults }

/-- `formatUnhandledError` (`provider.ts` lines 351-365). -/
def formatUnhandledError : JSValue → String
  | .errObj message stack =>
      match stack with
      | some s =>
          if 0 < (jsTrim s).length then s
          else if message = "" then "Unhandled error" else message
      | none => if message = "" then "Unhandled error" else message
  | .str s => s
  | .other stringRep jsonRep =>
      match jsonRep with
      | some j => j
      | none => stringRep

/-- The strings pushed for one entry of an error's `stacks` array
(`provider.ts` lines 384-390). -/
def stackEntryMessages (entry : Option VitestStackEntry) : List String :=
  match entry with
  | none => []
  | some s =>
      match s.message with
      | some m =>
          if 0 < (jsTrim m).length then [jsTrim m]
          else match s.stack with
               | some k => if 0 < (jsTrim k).length then [jsTrim k] else []
               | none => []
      | none =>
          match s.stack with
          | some k => if 0 < (jsTrim k).length then [jsTrim k] else []
          | none => []

/-- The `messages` array built by the collection loop of `formatTaskErrors`
(`provider.ts` lines 372-394), in push order: for each non-null error its
trimmed non-blank `message`, then each `stacks` entry's trimmed non-blank
`message` or else trimmed non-blank `stack`, or — when no `stacks` array is
present — the error's own trimmed non-blank `stack`. -/
def collectErrorMessages : List (Option VitestTaskError) → List String
  | [] => []
  | none :: rest => collectErrorMessages rest
  | some e :: rest =>
      (match e.message with
       | some m => if 0 < (jsTrim m).length then [jsTrim m] else []
       | none => []) ++
      (match e.stacks' with
       | some stackList => stackList.flatMap stackEntryMessages
       | none =>
           match e.stack with
           | some s => if 0 < (jsTrim s).length then [jsTrim s] else []
           | none => []) ++
      collectErrorMessages rest

/-- The predicate of the dedup filter in `formatTaskErrors`
(`provider.ts` line 396): `value.length > 0 && array.indexOf(value) === index`. -/
def dedupPred (messages : List String) (p : Nat × String) : Bool :=
  0 < p.2.length && messages.indexOf p.2 == p.1

/-- The dedup step of `formatTaskErrors` (`provider.ts` line 396): keep each
non-empty string whose first occurrence index equals its own index. -/
def dedupByIndexOf (messages : List String) : List String :=
  (messages.enum.filter (dedupPred messages)).map Prod.snd

/-- `formatTaskErrors` (`provider.ts` lines 367-398). -/
def formatTaskErrors (errors : Option (List (Option VitestTaskError))) : Option String :=
  match errors with
  | none => none
  | some es =>
      if es.length = 0 then none
      else
        let messages := collectErrorMessages es
        let unique := dedupByIndexOf messages
        if 0 < unique.length then some (String.intercalate "\n\n" unique) else none

/-- The state of a test task (`provider.ts` line 305): the explicit
`result.state`, falling back to the `mode` marker when that marker is
`"skip"` or `"todo"`. -/
def effectiveState (result : Option TaskResultInfo) (mode : Option String) : Option String :=
  match result.bind TaskResultInfo.state with
  | some s => some s
  | none => if mode = some "skip" ∨ mode = some "todo" then mode else none

/-- The outcome the flattener pushes for one `"test"` task
(`provider.ts` lines 305-330). -/
def mkTestResult (name mode : Option String) (result : Option TaskResultInfo)
    (filePath : String) : TestRunResult :=
  let state := effectiveState result mode
  let durationMs : ℚ :=
    match result.bind TaskResultInfo.duration with
    | some d => max 0 d
    | none => 0
  let displayName :=
    match name with
    | some n => if 0 < (jsTrim n).length then n else "[unnamed]"
    | none => "[unnamed]"
  let normalizedFile := if filePath = "" then "[vitest]" else filePath
  if state = some "skip" ∨ state = some "todo" then
    { name := displayName, file := normalizedFile, passed := true,
      message := none, durationMs := durationMs }
  else
    { name := displayName, file := normalizedFile,
      passed := decide (state = some "pass"),
      message :=
        if state = some "pass" then none
        else some ((formatTaskErrors (result.bind TaskResultInfo.errors)).getD
          "Vitest reported a failure without additional details."),
      durationMs := durationMs }

/-- `collectTaskResults` (`provider.ts` lines 283-332), with the mutated
`accumulator` array modelled by accumulator passing.  The two top-level
patterns on the `tasks` field mirror the truthiness tests
`if (task.tasks)` / `task.tasks && task.tasks.length > 0`. -/
def collectTaskResults : List VitestTask → String → List TestRunResult → List TestRunResult
  | [], _, accumulator => accumulator
  | VitestTask.null :: rest, filePath, accumulator =>
      collectTaskResults rest filePath accumulator
  | VitestTask.mk ty nm md (some children) res :: rest, filePath, accumulator =>
      if ty = some "suite" then
        collectTaskResults rest filePath (collectTaskResults children filePath accumulator)
      else if 0 < children.length ∧ ty ≠ some "test" then
        collectTaskResults rest filePath (collectTaskResults children filePath accumulator)
      else if ty ≠ some "test" then
        collectTaskResults rest filePath accumulator
      else
        collectTaskResults rest filePath (accumulator ++ [mkTestResult nm md res filePath])
  | VitestTask.mk ty nm md none res :: rest, filePath, accumulator =>
      if ty = some "suite" then
        collectTaskResults rest filePath accumulator
      else if ty ≠ some "test" then
        collectTaskResults rest filePath accumulator
      else
        collectTaskResults rest filePath (accumulator ++ [mkTestResult nm md res filePath])

/-- The synthetic failing result appended for one unhandled engine error
(`provider.ts` lines 340-347). -/
def mkUnhandledResult (requestedFiles : List String) (e : JSValue) : TestRunResult :=
  { name := "[unhandled]", file := requestedFiles.headD "[vitest]", passed := false,
    message := some (formatUnhandledError e), durationMs := 0 }

/-- `appendUnhandledErrors` (`provider.ts` lines 334-349). -/
def appendUnhandledErrors (errors : Option (List JSValue)) (requestedFiles : List String)
    (results : List TestRunResult) : List TestRunResult :=
  match errors with
  | none => results
  | some es =>
      if es.length = 0 then results
      else results ++ es.map (mkUnhandledResult requestedFiles)

/-- The resolved module file of `buildSummaryFromVitest`
(`provider.ts` line 251): `moduleResult.filepath ? path.resolve(...) : null`,
where an empty-string filepath is falsy. -/
def moduleFileOf (resolve : String → String) (m : VitestModuleResult) : Option String :=
  match m.filepath with
  | some fp => if fp = "" then none else some (resolve fp)
  | none => none

/-- The per-module loop of `buildSummaryFromVitest` (`provider.ts` lines
250-265), threading the `results` array and the `moduleDuration`
accumulator.  The requested set is modelled as the list of resolved
requested files; only emptiness and membership are consulted, as in the
code. -/
def buildLoop (resolve : String → String) (requestedSet requestedFiles : List String) :
    List VitestModuleResult → List TestRunResult → ℚ → List TestRunResult × ℚ
  | [], results, moduleDuration => (results, moduleDuration)
  | m :: rest, results, moduleDuration =>
      let moduleFile := moduleFileOf resolve m
      let skip : Bool :=
        !requestedSet.isEmpty &&
          (match moduleFile with
           | some f => !(requestedSet.contains f)
           | none => false)
      if skip then
        buildLoop resolve requestedSet requestedFiles rest results moduleDuration
      else
        let newDuration :=
          match moduleFile, m.result.bind ModuleResultInfo.duration with
          | some _, some d => moduleDuration + max 0 d
          | _, _ => moduleDuration
        let newResults :=
          match m.tasks with
          | some tasks =>
              collectTaskResults tasks (moduleFile.getD (requestedFiles.headD "[vitest]")) results
          | none => results
        buildLoop resolve requestedSet requestedFiles rest newResults newDuration

/-- The per-result duration sum of `buildSummaryFromVitest`
(`provider.ts` line 271). -/
def durationFromTests (results : List TestRunResult) : ℚ :=
  results.foldl (fun total r => total + max 0 r.durationMs) 0

/-- `buildSummaryFromVitest` (`provider.ts` lines 241-281). -/
def buildSummaryFromVitest (resolve : String → String)
    (modules : Option (List VitestModuleResult)) (unhandledErrors : Option (List JSValue))
    (requestedFiles : List String) : RunnerSummary :=
  let requestedSet := requestedFiles.map resolve
  let pair := buildLoop resolve requestedSet requestedFiles (modules.getD []) [] 0
  let results := appendUnhandledErrors unhandledErrors requestedFiles pair.1
  let passed := (results.filter fun r => r.passed).length
  let failed := results.length - passed
  let durationMs := if 0 < durationFromTests results then durationFromTests results else pair.2
  { passed := passed, failed := failed, total := results.length,
    durationMs := durationMs, results := results }

/-- The three process-wide environment markers mutated by `runVitest`
(`provider.ts` lines 165-171). -/
structure EnvState where
  provider : Option String
  testingProvider : Option String
  spec : Option String
deriving DecidableEq, Repr

/-- Setting the markers (`provider.ts` lines 169-171): provider kind
`"vitest"`, provider identity, and the spec marker re-set to its own prior
value defaulted to the empty string. -/
def setEnvMarkers (env : EnvState) : EnvState :=
  { provider := some "vitest",
    testingProvider := some "@webstir-io/vitest-testing",
    spec := some (env.spec.getD "") }

/-- The `finally` block of `runVitest` (`provider.ts` lines 212-230): each
marker is set back to its original value when that was a string, and deleted
otherwise. -/
def restoreEnvMarkers (original : EnvState) : EnvState :=
  { provider := match original.provider with | some v => some v | none => none,
    testingProvider := match original.testingProvider with | some v => some v | none => none,
    spec := match original.spec with | some v => some v | none => none }

/-- Outcome of the dynamic import of the engine entry module
(`provider.ts` lines 128-141): the import throws, or it loads and either
exposes a callable `startVitest` export or does not. -/
inductive LoadOutcome : Type where
  | throws (error : JSValue) : LoadOutcome
  | loaded (hasStartVitest : Bool) : LoadOutcome
deriving DecidableEq, Repr

/-- Outcome of the `startVitest` call (`provider.ts` lines 176-198): either
it throws, or it returns a result context with its module results, whether
`getUnhandledErrors` is a function, and the unhandled errors it would list. -/
inductive ExecOutcome : Type where
  | throws (error : JSValue) : ExecOutcome
  | ok (files : List VitestModuleResult) (hasGetUnhandledErrors : Bool)
      (unhandledErrors : List JSValue) : ExecOutcome

/-- The external world one invocation of `runVitest` observes:
`require.resolve('vitest/package.json')` (`none` = not resolvable), the
dynamic-import outcome, the engine-call outcome, the stdout/stderr text the
capture sinks hold when the invocation settles, the elapsed wall-clock
milliseconds, and `path.resolve`. -/
structure VitestWorld where
  vitestPackage : Option String
  loadOutcome : LoadOutcome
  execOutcome : ExecOutcome
  stdoutCaptured : String
  stderrCaptured : String
  elapsedMs : ℚ
  resolve : String → String

/-- The not-installed warning message (`provider.ts` line 122). -/
def notInstalledMessage : String :=
  "[webstir-io/vitest-testing] Vitest runtime not installed. Install \"vitest\" in the active workspace or ensure it can be resolved."

/-- The load-failure message (`provider.ts` lines 137-138), with the reason
extracted as `error instanceof Error ? error.message : String(error)`. -/
def loadErrorReason : JSValue → String
  | .errObj message _ => message
  | .str s => s
  | .other stringRep _ => stringRep

/-- The load-failure warning message (`provider.ts` line 138). -/
def loadFailureMessage (reason : String) : String :=
  "[webstir-io/vitest-testing] Unable to load the Vitest runtime: " ++ reason

/-- The missing-export warning message (`provider.ts` line 144). -/
def missingExportMessage : String :=
  "[webstir-io/vitest-testing] Unable to locate the Vitest startVitest export."

/-- The execution-failure reason (`provider.ts` line 208). -/
def execFailureReason : JSValue → String
  | .errObj message _ => "Vitest execution failed: " ++ message
  | .str _ => "Vitest execution failed."
  | .other _ _ => "Vitest execution failed."

/-- `formatFailureMessage` (`provider.ts` lines 409-423). -/
def formatFailureMessage (reason stdout stderr : String) : String :=
  let sections := [jsTrim reason]
  let withStdout :=
    if 0 < (jsTrim stdout).length then sections ++ ["[stdout]\n" ++ jsTrim stdout] else sections
  let withStderr :=
    if 0 < (jsTrim stderr).length then withStdout ++ ["[stderr]\n" ++ jsTrim stderr]
    else withStdout
  String.intercalate "\n\n" withStderr

/-- Result of one `runVitest` invocation: the summary it returns, the
process environment after it returns, and — when the engine call was
reached — the environment in force during that call. -/
structure RunOutcome where
  summary : RunnerSummary
  envAfter : EnvState
  envDuringEngineCall : Option EnvState
deriving DecidableEq, Repr

/-- `runVitest` (`provider.ts` lines 119-231) over the explicit world model.
Each early-return failure path produces `createFailureSummary` and leaves
the environment untouched; the engine-call path sets the markers, and both
its exit paths (success and catch) restore them in the shared `finally`
block. -/
def runVitest (w : VitestWorld) (env : EnvState) (files : List String) : RunOutcome :=
  match w.vitestPackage with
  | none => ⟨createFailureSummary files notInstalledMessage, env, none⟩
  | some _ =>
      match w.loadOutcome with
      | .throws e =>
          ⟨createFailureSummary files (loadFailureMessage (loadErrorReason e)), env, none⟩
      | .loaded false =>
          ⟨createFailureSummary files missingExportMessage, env, none⟩
      | .loaded true =>
          let normalizedFiles := files.map w.resolve
          let envDuring := setEnvMarkers env
          match w.execOutcome with
          | .ok moduleFiles hasGet unhandled =>
              let summary := buildSummaryFromVitest w.resolve (some moduleFiles)
                (some (if hasGet then unhandled else [])) normalizedFiles
              let finalSummary :=
                if 0 < summary.durationMs then summary
                else { summary with durationMs := w.elapsedMs }
              ⟨finalSummary, restoreEnvMarkers env, some envDuring⟩
          | .throws e =>
              let message :=
                formatFailureMessage (execFailureReason e) w.stdoutCaptured w.stderrCaptured
              ⟨createFailureSummary files message, restoreEnvMarkers env, some envDuring⟩

/-- The provider's `runTests` (`provider.ts` lines 56-66): an empty file
list short-circuits to the empty summary without touching the engine. -/
def runTests (w : VitestWorld) (env : EnvState) (files : List String) : RunOutcome :=
  if files.length = 0 then ⟨createEmptySummary, env, none⟩
  else runVitest w env files

/-! ### Specification-side definitions

The following definitions are written from the wording of the spec and its
claims, to be compared against the code-side definitions above. -/

/-- Claim-side traversal policy for the task tree (spec section 4.3 step 4):
a `"suite"` task is recursed into (nothing emitted, skipped when it has no
children); a `"test"` task yields exactly one outcome; a task with non-empty
nested children that is neither suite nor test is recursed into without
emitting; any other or null task is ignored with no recursion.  Outcomes are
listed in depth-first traversal order. -/
def dfsOutcomes (filePath : String) : List VitestTask → List TestRunResult
  | [] => []
  | VitestTask.null :: rest => dfsOutcomes filePath rest
  | VitestTask.mk ty nm md tks res :: rest =>
      (if ty = some "suite" then
         match tks with
         | some children => dfsOutcomes filePath children
         | none => []
       else if ty = some "test" then [mkTestResult nm md res filePath]
       else
         match tks with
         | some children => if 0 < children.length then dfsOutcomes filePath children else []
         | none => []) ++ dfsOutcomes filePath rest

/-- Claim-side candidate collection for the error reconciler (spec section
4.4): the error's trimmed non-blank message, plus each `stacks` entry's
trimmed non-blank message or else its trimmed non-blank raw stack text, or —
when no `stacks` sequence is present — the error's trimmed non-blank raw
stack text. -/
def specCandidates (e : VitestTaskError) : List String :=
  (match e.message with
   | some m => if 0 < (jsTrim m).length then [jsTrim m] else []
   | none => []) ++
  (match e.stacks' with
   | some stackList => stackList.flatMap stackEntryMessages
   | none =>
       match e.stack with
       | some s => if 0 < (jsTrim s).length then [jsTrim s] else []
       | none => [])

/-- Claim-side stable dedup: keep the first occurrence of each string,
dropping later exact duplicates. -/
def dedupFirstAux (seen : List String) : List String → List String
  | [] => []
  | x :: xs =>
      if seen.contains x then dedupFirstAux seen xs
      else x :: dedupFirstAux (x :: seen) xs

/-- Claim-side reconciler (spec section 4.4, claim C6): collect the
candidate strings of every non-null error, dedup them preserving
first-occurrence order, join with a blank line, and return `none` exactly
when no candidate string was collected. -/
def reconcileSpec (errors : Option (List (Option VitestTaskError))) : Option String :=
  let candidates :=
    (errors.getD []).flatMap fun oe =>
      match oe with
      | some e => specCandidates e
      | none => []
  let unique := dedupFirstAux [] candidates
  if unique.isEmpty then none else some (String.intercalate "\n\n" unique)

/-- Claim-side drop condition for an engine module (claim C7): the requested
set is non-empty, the module's file is present, and it is not a member. -/
def moduleDropCheck (resolve : String → String) (requestedSet : List String)
    (m : VitestModuleResult) : Bool :=
  !requestedSet.isEmpty &&
    (match moduleFileOf resolve m with
     | some f => !(requestedSet.contains f)
     | none => false)

/-- A module's non-negative self-reported duration (claim C7): the clamped
`result.duration`, or 0 when it reports none. -/
def moduleSelfDuration (m : VitestModuleResult) : ℚ :=
  match m.result.bind ModuleResultInfo.duration with
  | some d => max 0 d
  | none => 0

/-- Claim-side fallback duration pool, amended (claim C7 as corrected):
every non-dropped module whose resolved file is present contributes its
non-negative self-reported duration; a non-dropped module without a file
contributes nothing. -/
def specDurationPool (resolve : String → String) (requestedSet : List String) :
    List VitestModuleResult → ℚ
  | [] => 0
  | m :: rest =>
      (if moduleDropCheck resolve requestedSet m then 0
       else if (moduleFileOf resolve m).isSome then moduleSelfDuration m else 0)
      + specDurationPool resolve requestedSet rest

/-- The fallback duration pool exactly as claim C7 states it (before
correction): every non-dropped module contributes its non-negative
self-reported duration, whether or not its file path is present. -/
def claimC7Pool (resolve : String → String) (requestedSet : List String) :
    List VitestModuleResult → ℚ
  | [] => 0
  | m :: rest =>
      (if moduleDropCheck resolve requestedSet m then 0 else moduleSelfDuration m)
      + claimC7Pool resolve requestedSet rest

/-- An invocation world in which the engine fails: not installed, import
throws, `startVitest` export missing, or execution throws (claims C1, C10). -/
def isEngineFailure (w : VitestWorld) : Prop :=
  w.vitestPackage = none ∨
  (∃ e, w.loadOutcome = LoadOutcome.throws e) ∨
  w.loadOutcome = LoadOutcome.loaded false ∨
  (∃ e, w.execOutcome = ExecOutcome.throws e)

/-- The failure message `runVitest` uses for the failure mode of a world
(claims C1, C10); the `ExecOutcome.ok` arm is unreachable under
`isEngineFailure` together with the earlier arms. -/
def failureMessageFor (w : VitestWorld) : String :=
  match w.vitestPackage with
  | none => notInstalledMessage
  | some _ =>
      match w.loadOutcome with
      | .throws e => loadFailureMessage (loadErrorReason e)
      | .loaded false => missingExportMessage
      | .loaded true =>
          match w.execOutcome with
          | .throws e => formatFailureMessage (execFailureReason e) w.stdoutCaptured w.stderrCaptured
          | .ok _ _ _ => ""

/-- Claim-side well-formedness of a summary (claim C2): `total` is the
partition identity and `passed`/`failed` are the partition sizes of
`results` by `passed`. -/
def summaryWellFormed (s : RunnerSummary) : Prop :=
  s.total = s.passed + s.failed ∧
  s.passed = (s.results.filter fun r => r.passed).length ∧
  s.failed = (s.results.filter fun r => !r.passed).length ∧
  s.total = s.results.length

/-! ### General list lemmas -/

theorem filter_map_swap {α β : Type} (f : α → β) (p : β → Bool) (l : List α) :
    (l.map f).filter p = (l.filter fun a => p (f a)).map f := by
  induction l with
  | nil => rfl
  | cons a l ih => by_cases h : p (f a) <;> simp [h, ih]

theorem snd_filter_swap {α : Type} (q : Nat × α → Bool) (r : α → Bool) (l : List (Nat × α)) :
    (l.filter fun p => q p && r p.2).map Prod.snd = ((l.filter q).map Prod.snd).filter r := by
  induction l with
  | nil => rfl
  | cons a l ih => by_cases h1 : q a <;> by_cases h2 : r a.2 <;> simp [h1, h2, ih]

theorem enumFrom_shift {α : Type} (n : Nat) (l : List α) :
    List.enumFrom (n + 1) l = (List.enumFrom n l).map (Prod.map (· + 1) id) := by
  induction l generalizing n with
  | nil => simp
  | cons a l ih => simp [List.enumFrom, ih, Prod.map]

theorem filter_swap {α : Type} (p q : α → Bool) (l : List α) :
    (l.filter p).filter q = (l.filter q).filter p := by
  induction l with
  | nil => rfl
  | cons a l ih => by_cases h1 : p a <;> by_cases h2 : q a <;> simp [h1, h2, ih]

theorem filter_idem {α : Type} (p : α → Bool) (l : List α) :
    (l.filter p).filter p = l.filter p := by
  induction l with
  | nil => rfl
  | cons a l ih => by_cases h : p a <;> simp [h, ih]

theorem length_filter_partition {α : Type} (p : α → Bool) (l : List α) :
    (l.filter p).length + (l.filter fun a => !p a).length = l.length := by
  induction l with
  | nil => rfl
  | cons a l ih => by_cases h : p a <;> simp [h, ← ih] <;> omega

/-! ### Dedup: the `indexOf`-based filter equals stable first-occurrence dedup -/

theorem dedupByIndexOf_cons (x : String) (xs : List String) :
    dedupByIndexOf (x :: xs)
      = (if 0 < x.length then [x] else []) ++ (dedupByIndexOf xs).filter (fun y => !(y == x)) := by
  have henum : (x :: xs).enum = (0, x) :: (xs.enum.map (Prod.map (· + 1) id)) := by
    show (x :: xs).enum = (0, x) :: ((List.enumFrom 0 xs).map (Prod.map (· + 1) id))
    rw [← enumFrom_shift]
    rfl
  have hpredshift : ∀ (i : Nat) (y : String),
      dedupPred (x :: xs) (i + 1, y) = (dedupPred xs (i, y) && !(y == x)) := by
    intro i y
    rw [Bool.eq_iff_iff]
    by_cases hxy : x = y
    · subst hxy
      simp [dedupPred, List.indexOf_cons]
    · simp only [dedupPred, List.indexOf_cons, beq_iff_eq, cond_eq_if]
      simp [hxy, Ne.symm hxy, beq_iff_eq]
  have htail : (List.filter (dedupPred (x :: xs)) (xs.enum.map (Prod.map (· + 1) id))).map Prod.snd
      = (dedupByIndexOf xs).filter (fun y => !(y == x)) := by
    rw [filter_map_swap]
    have hfun : (fun a => dedupPred (x :: xs) (Prod.map (· + 1) id a))
        = (fun p : Nat × String => dedupPred xs p && !(p.2 == x)) := by
      funext p
      obtain ⟨i, y⟩ := p
      exact hpredshift i y
    rw [hfun, List.map_map]
    have hsnd : (Prod.snd ∘ Prod.map (· + 1) (id : String → String)) = Prod.snd := by
      funext p
      rfl
    rw [hsnd]
    exact snd_filter_swap (dedupPred xs) (fun y => !(y == x)) xs.enum
  by_cases hx : 0 < x.length
  · have hp : dedupPred (x :: xs) (0, x) = true := by
      simp [dedupPred, List.indexOf_cons_self, hx]
    unfold dedupByIndexOf
    rw [henum, List.filter_cons, hp]
    simp only [if_true, List.map_cons]
    rw [htail]
    simp only [hx, if_true]
    rfl
  · have hp : dedupPred (x :: xs) (0, x) = false := by
      simp [dedupPred, List.indexOf_cons_self, hx]
    unfold dedupByIndexOf
    rw [henum, List.filter_cons, hp]
    simp only [Bool.false_eq_true, if_false]
    rw [htail]
    simp only [hx, if_false, List.nil_append]
    rfl

theorem dedupFirstAux_cons_seen (l : List String) : ∀ (seen : List String) (s : String),
    dedupFirstAux (s :: seen) l = (dedupFirstAux seen l).filter (fun y => !(y == s)) := by
  induction l with
  | nil => intro seen s; rfl
  | cons x xs ih =>
      intro seen s
      by_cases hxs : x = s
      · subst hxs
        by_cases hc : seen.contains x
        · have hcx : ((x :: seen).contains x) = true := by
            simp [List.contains_cons]
          simp only [dedupFirstAux, hcx, hc, if_true]
          rw [ih seen x]
        · have hcx : ((x :: seen).contains x) = true := by
            simp [List.contains_cons]
          simp only [dedupFirstAux, hcx, hc, if_true, Bool.false_eq_true, if_false]
          rw [ih seen x]
          simp [filter_idem]
      · by_cases hc : seen.contains x
        · have hcs : ((s :: seen).contains x) = true := by
            simp only [List.contains_cons, hc, Bool.or_true]
          simp only [dedupFirstAux, hcs, hc, if_true]
          rw [ih seen s]
        · have hcs : ((s :: seen).contains x) = false := by
            simp [List.contains_cons, beq_iff_eq, hxs]
            simpa using hc
          simp only [dedupFirstAux, hcs, hc, Bool.false_eq_true, if_false]
          rw [ih (s :: seen) x, ih seen s, ih seen x, filter_swap]
          simp [beq_iff_eq, hxs]

theorem dedupByIndexOf_eq_dedupFirst (l : List String) (h : ∀ y ∈ l, 0 < y.length) :
    dedupByIndexOf l = dedupFirstAux [] l := by
  induction l with
  | nil => rfl
  | cons x xs ih =>
      have hx : 0 < x.length := h x (List.mem_cons_self x xs)
      have hxs : ∀ y ∈ xs, 0 < y.length := fun y hy => h y (List.mem_cons_of_mem x hy)
      rw [dedupByIndexOf_cons, ih hxs]
      simp only [hx, if_true]
      rw [← dedupFirstAux_cons_seen]
      simp [dedupFirstAux]

/-! ### The error reconciler -/

theorem stackEntryMessages_pos (entry : Option VitestStackEntry) :
    ∀ y ∈ stackEntryMessages entry, 0 < y.length := by
  intro y hy
  unfold stackEntryMessages at hy
  rcases entry with _ | ⟨m, k⟩
  · simp at hy
  · rcases m with _ | m <;> rcases k with _ | k <;> simp only at hy
    · simp at hy
    · split at hy <;> simp_all
    · split at hy <;> simp_all
    · split at hy
      · simp_all
      · split at hy <;> simp_all

theorem collectErrorMessages_pos (es : List (Option VitestTaskError)) :
    ∀ y ∈ collectErrorMessages es, 0 < y.length := by
  induction es with
  | nil => intro y hy; simp [collectErrorMessages] at hy
  | cons oe rest ih =>
      intro y hy
      rcases oe with _ | e
      · exact ih y (by simpa [collectErrorMessages] using hy)
      · simp only [collectErrorMessages, List.mem_append] at hy
        rcases hy with (hy | hy) | hy
        · rcases e with ⟨m, k, sl⟩
          rcases m with _ | m
          · simp at hy
          · simp only at hy
            split at hy <;> simp_all
        · rcases e with ⟨m, k, sl⟩
          rcases sl with _ | sl
          · rcases k with _ | k
            · simp at hy
            · simp only at hy
              split at hy <;> simp_all
          · simp only [List.mem_flatMap] at hy
            obtain ⟨entry, _, hentry⟩ := hy
            exact stackEntryMessages_pos entry y hentry
        · exact ih y hy

theorem collectErrorMessages_eq_flatMap (es : List (Option VitestTaskError)) :
    collectErrorMessages es
      = es.flatMap (fun oe => match oe with | some e => specCandidates e | none => []) := by
  induction es with
  | nil => rfl
  | cons oe rest ih =>
      rcases oe with _ | e
      · simp [collectErrorMessages, ih]
      · simp [collectErrorMessages, specCandidates, ih]

/-- C6: the reconciler `formatTaskErrors` behaves exactly as specified: it
collects each error's trimmed non-blank message plus the stack-derived
candidates (each `stacks` entry's trimmed non-blank message or else raw
stack text, or the error's own trimmed non-blank stack when no `stacks`
sequence is present), dedups the collected strings by exact equality
preserving first-occurrence order, joins them with a blank-line separator,
and returns `none` exactly when the input is empty, absent, or yields no
non-blank candidate. -/
theorem c6_reconciler_refines_spec (errors : Option (List (Option VitestTaskError))) :
    formatTaskErrors errors = reconcileSpec errors := by
  rcases errors with _ | es
  · rfl
  · unfold formatTaskErrors reconcileSpec
    simp only [Option.getD_some]
    have hcand : collectErrorMessages es
        = es.flatMap (fun oe => match oe with | some e => specCandidates e | none => []) :=
      collectErrorMessages_eq_flatMap es
    have hdedup : dedupByIndexOf (collectErrorMessages es) = dedupFirstAux [] (collectErrorMessages es) :=
      dedupByIndexOf_eq_dedupFirst _ (collectErrorMessages_pos es)
    rcases es with _ | ⟨oe, rest⟩
    · rfl
    · simp only [List.length_cons, Nat.succ_ne_zero, if_false, reduceCtorEq]
      rw [← hcand, hdedup]
      rcases hu : dedupFirstAux [] (collectErrorMessages (oe :: rest)) with _ | ⟨u, us⟩
      · simp
      · simp

/-! ### The result tree flattener -/

theorem collectTaskResults_eq_dfs (tasks : List VitestTask) (fp : String)
    (acc : List TestRunResult) :
    collectTaskResults tasks fp acc = acc ++ dfsOutcomes fp tasks := by
  induction tasks, fp, acc using collectTaskResults.induct
  all_goals simp_all [collectTaskResults, dfsOutcomes]

theorem mem_dfsOutcomes (fp : String) (tasks : List VitestTask) :
    ∀ r ∈ dfsOutcomes fp tasks, ∃ nm md res, r = mkTestResult nm md res fp := by
  induction tasks using dfsOutcomes.induct fp with
  | case1 => intro r hr; simp [dfsOutcomes] at hr
  | case2 rest ih =>
      intro r hr
      exact ih r (by simpa [dfsOutcomes] using hr)
  | case3 ty nm md tks res rest ihc ih2 =>
      intro r hr
      rw [dfsOutcomes.eq_def] at hr
      simp only [List.mem_append] at hr
      rcases hr with hr | hr
      · rcases tks with _ | children
        · split at hr
          · simp at hr
          · split at hr
            · exact ⟨nm, md, res, by simpa using hr⟩
            · simp at hr
        · have ihc2 : ∀ r ∈ dfsOutcomes fp children, ∃ nm md res, r = mkTestResult nm md res fp :=
            ihc
          split at hr
          · exact ihc2 r hr
          · split at hr
            · exact ⟨nm, md, res, by simpa using hr⟩
            · have hr2 : r ∈ (if 0 < children.length then dfsOutcomes fp children else []) := hr
              split at hr2
              · exact ihc2 r hr2
              · simp at hr2
      · exact ih2 r hr

theorem mkTestResult_message_iff (nm md : Option String) (res : Option TaskResultInfo)
    (fp : String) :
    ((mkTestResult nm md res fp).message = none ↔ (mkTestResult nm md res fp).passed = true) := by
  by_cases h : effectiveState res md = some "skip" ∨ effectiveState res md = some "todo"
  · simp [mkTestResult, h]
  · by_cases hp : effectiveState res md = some "pass" <;> simp [mkTestResult, h, hp]

theorem mkTestResult_skip_todo (nm md : Option String) (res : Option TaskResultInfo)
    (fp : String)
    (h : effectiveState res md = some "skip" ∨ effectiveState res md = some "todo") :
    (mkTestResult nm md res fp).passed = true ∧ (mkTestResult nm md res fp).message = none := by
  simp [mkTestResult, h]

/-- C4: the flattener emits exactly one outcome per task typed `"test"` and
none for any other node, recursing into `"suite"` tasks (which contribute
nothing themselves and are skipped when childless), recursing without
emitting into tasks with non-empty children that are neither suite nor
test, and ignoring all other or null tasks without recursion; outcomes
appear in depth-first traversal order.  `dfsOutcomes` is that traversal
policy transcribed from the claim, and `collectTaskResults` (the code)
appends exactly its outcomes to the accumulator. -/
theorem c4_flattener_dfs_order (tasks : List VitestTask) (fp : String)
    (acc : List TestRunResult) :
    collectTaskResults tasks fp acc = acc ++ dfsOutcomes fp tasks :=
  collectTaskResults_eq_dfs tasks fp acc

/-- C3: for every result the flattener emits, `message` is `none` exactly
when `passed` is `true`; and a test task whose effective state (explicit
result state, falling back to the skip/todo mode marker) is skip or todo is
always recorded as `passed = true` with `message = none`. -/
theorem c3_message_iff_passed :
    (∀ (tasks : List VitestTask) (fp : String) (r : TestRunResult),
        r ∈ collectTaskResults tasks fp [] → ((r.message = none) ↔ (r.passed = true))) ∧
    (∀ (nm md : Option String) (res : Option TaskResultInfo) (fp : String),
        (effectiveState res md = some "skip" ∨ effectiveState res md = some "todo") →
        (mkTestResult nm md res fp).passed = true ∧ (mkTestResult nm md res fp).message = none) := by
  constructor
  · intro tasks fp r hr
    rw [collectTaskResults_eq_dfs, List.nil_append] at hr
    obtain ⟨nm, md, res, rfl⟩ := mem_dfsOutcomes fp tasks r hr
    exact mkTestResult_message_iff nm md res fp
  · exact mkTestResult_skip_todo

/-- Witness for C3 at a concrete input: a passing test task and a skipped
test task, exercised through the theorem itself. -/
theorem c3_message_iff_passed_witness :
    ((mkTestResult (some "t") none (some ⟨some "pass", some 5, none⟩) "f.ts").message = none ↔
     (mkTestResult (some "t") none (some ⟨some "pass", some 5, none⟩) "f.ts").passed = true) ∧
    ((mkTestResult (some "s") (some "skip") none "f.ts").passed = true ∧
     (mkTestResult (some "s") (some "skip") none "f.ts").message = none) := by
  constructor
  · have hmem : (mkTestResult (some "t") none (some ⟨some "pass", some 5, none⟩) "f.ts") ∈
        collectTaskResults
          [VitestTask.mk (some "test") (some "t") none none
            (some ⟨some "pass", some 5, none⟩)] "f.ts" [] := by
      rw [collectTaskResults_eq_dfs]
      simp [dfsOutcomes]
    exact c3_message_iff_passed.1 _ "f.ts" _ hmem
  · exact c3_message_iff_passed.2 (some "s") (some "skip") none "f.ts"
      (Or.inl (by simp [effectiveState]))

/-! ### The summary builder -/

theorem createFailureSummary_results (files : List String) (msg : String) :
    (createFailureSummary files msg).results
      = (if files = [] then
          [{ name := "[vitest provider]", file := "[vitest]", passed := false,
             message := some (jsTrim msg), durationMs := 0 }]
         else files.map fun file =>
          { name := "[vitest provider]", file := file, passed := false,
            message := some (jsTrim msg), durationMs := 0 }) := by
  unfold createFailureSummary
  rcases files with _ | ⟨f, fs⟩ <;> simp

theorem createFailureSummary_passed (files : List String) (msg : String) :
    (createFailureSummary files msg).passed = 0 := rfl

theorem createFailureSummary_failed (files : List String) (msg : String) :
    (createFailureSummary files msg).failed = (createFailureSummary files msg).results.length := rfl

theorem createFailureSummary_total (files : List String) (msg : String) :
    (createFailureSummary files msg).total = (createFailureSummary files msg).results.length := rfl

theorem createFailureSummary_durationMs (files : List String) (msg : String) :
    (createFailureSummary files msg).durationMs = 0 := rfl

theorem createFailureSummary_mem (files : List String) (msg : String) (r : TestRunResult)
    (hr : r ∈ (createFailureSummary files msg).results) :
    r.name = "[vitest provider]" ∧ r.passed = false ∧ r.message = some (jsTrim msg) ∧
    r.durationMs = 0 := by
  rw [createFailureSummary_results] at hr
  split at hr
  · simp only [List.mem_singleton] at hr
    subst hr
    refine ⟨rfl, rfl, rfl, rfl⟩
  · obtain ⟨f, _, rfl⟩ := List.mem_map.mp hr
    refine ⟨rfl, rfl, rfl, rfl⟩

theorem summaryWellFormed_createEmpty : summaryWellFormed createEmptySummary := by
  simp [summaryWellFormed, createEmptySummary]

theorem summaryWellFormed_createFailure (files : List String) (msg : String) :
    summaryWellFormed (createFailureSummary files msg) := by
  have hall : ∀ r ∈ (createFailureSummary files msg).results, r.passed = false :=
    fun r hr => (createFailureSummary_mem files msg r hr).2.1
  have hnil : (createFailureSummary files msg).results.filter (fun r => r.passed) = [] := by
    rw [List.filter_eq_nil_iff]
    intro r hr
    simp [hall r hr]
  have hself : (createFailureSummary files msg).results.filter (fun r => !r.passed)
      = (createFailureSummary files msg).results := by
    rw [List.filter_eq_self]
    intro r hr
    simp [hall r hr]
  refine ⟨?_, ?_, ?_, createFailureSummary_total files msg⟩
  · rw [createFailureSummary_total, createFailureSummary_failed, createFailureSummary_passed]
    omega
  · rw [createFailureSummary_passed, hnil]
    rfl
  · rw [createFailureSummary_failed, hself]

theorem summaryWellFormed_buildSummary (resolve : String → String)
    (mods : Option (List VitestModuleResult)) (unh : Option (List JSValue))
    (rfiles : List String) :
    summaryWellFormed (buildSummaryFromVitest resolve mods unh rfiles) := by
  unfold summaryWellFormed buildSummaryFromVitest
  simp only []
  have h := length_filter_partition (fun r => r.passed)
    (appendUnhandledErrors unh rfiles
      (buildLoop resolve (rfiles.map resolve) rfiles (mods.getD []) [] 0).1)
  refine ⟨?_, ?_, ?_, ?_⟩ <;> first | trivial | omega

theorem summaryWellFormed_setDuration (s : RunnerSummary) (d : ℚ)
    (h : summaryWellFormed s) : summaryWellFormed { s with durationMs := d } := by
  exact h

theorem summaryWellFormed_ite (c : Prop) [Decidable c] (s : RunnerSummary) (d : ℚ)
    (h : summaryWellFormed s) :
    summaryWellFormed (if c then s else { s with durationMs := d }) := by
  split
  · exact h
  · exact summaryWellFormed_setDuration s d h

/-- C2: every summary the provider produces — empty-list path, failure
path, success path — satisfies the partition identities: `total` equals
`passed + failed`, and `passed`/`failed` equal the sizes of the partition
of `results` by the `passed` flag. -/
theorem c2_summary_partition (w : VitestWorld) (env : EnvState) (files : List String) :
    summaryWellFormed (runTests w env files).summary := by
  obtain ⟨vp, lo, eo, so, se, el, rs⟩ := w
  unfold runTests
  split
  · exact summaryWellFormed_createEmpty
  · unfold runVitest
    rcases vp with _ | p
    · exact summaryWellFormed_createFailure _ _
    · rcases lo with e | b
      · exact summaryWellFormed_createFailure _ _
      · rcases b
        · exact summaryWellFormed_createFailure _ _
        · rcases eo with e | ⟨mf, hg, un⟩
          · exact summaryWellFormed_createFailure _ _
          · exact summaryWellFormed_ite _ _ _ (summaryWellFormed_buildSummary _ _ _ _)

/-! ### Module filtering and the fallback duration pool -/

theorem buildLoop_snd (resolve : String → String) (rset rfiles : List String) :
    ∀ (mods : List VitestModuleResult) (results : List TestRunResult) (md : ℚ),
      (buildLoop resolve rset rfiles mods results md).2
        = md + specDurationPool resolve rset mods := by
  intro mods
  induction mods with
  | nil => intro results md; simp [buildLoop, specDurationPool]
  | cons m rest ih =>
      intro results md
      by_cases hd : moduleDropCheck resolve rset m
      · have hd2 := hd
        unfold moduleDropCheck at hd2
        simp only [buildLoop, hd2, if_true, specDurationPool, hd]
        rw [ih]
        simp
      · have hd2 : (!rset.isEmpty &&
            (match moduleFileOf resolve m with
             | some f => !(rset.contains f)
             | none => false)) = false := by
          simpa [moduleDropCheck] using hd
        simp only [buildLoop, hd2, Bool.false_eq_true, if_false, specDurationPool, hd]
        rw [ih]
        rcases hmf : moduleFileOf resolve m with _ | f <;>
          rcases hdur : m.result.bind ModuleResultInfo.duration with _ | d <;>
            simp [hmf, hdur, moduleSelfDuration, add_assoc]

/-- C7 (as corrected): a module is dropped in its entirety — contributing
neither outcomes nor duration — exactly when the requested set is
non-empty, its file path is present, and the file is not a member; a
surviving module contributes its flattened outcomes and, only when its file
path is present, its non-negative self-reported duration to the fallback
pool (a module with zero tasks still contributes its duration).  The
amendment relative to the original claim: a surviving module whose file
path is absent contributes its outcomes but not its duration. -/
theorem c7_module_filtering (resolve : String → String) (rset rfiles : List String)
    (m : VitestModuleResult) (rest : List VitestModuleResult)
    (results : List TestRunResult) (md : ℚ) :
    (moduleDropCheck resolve rset m = true →
      buildLoop resolve rset rfiles (m :: rest) results md
        = buildLoop resolve rset rfiles rest results md) ∧
    (moduleDropCheck resolve rset m = false →
      buildLoop resolve rset rfiles (m :: rest) results md
        = buildLoop resolve rset rfiles rest
            (match m.tasks with
             | some tasks =>
                 collectTaskResults tasks
                   ((moduleFileOf resolve m).getD (rfiles.headD "[vitest]")) results
             | none => results)
            (md + (if (moduleFileOf resolve m).isSome then moduleSelfDuration m else 0))) ∧
    ((buildLoop resolve rset rfiles (m :: rest) results md).2
      = md + specDurationPool resolve rset (m :: rest)) := by
  refine ⟨?_, ?_, buildLoop_snd resolve rset rfiles (m :: rest) results md⟩
  · intro hd
    have hd2 := hd
    unfold moduleDropCheck at hd2
    simp only [buildLoop, hd2, if_true]
  · intro hd
    have hd2 : (!rset.isEmpty &&
        (match moduleFileOf resolve m with
         | some f => !(rset.contains f)
         | none => false)) = false := by
      simpa [moduleDropCheck] using hd
    simp only [buildLoop, hd2, Bool.false_eq_true, if_false]
    rcases hmf : moduleFileOf resolve m with _ | f <;>
      rcases hdur : m.result.bind ModuleResultInfo.duration with _ | d <;>
        simp [hmf, hdur, moduleSelfDuration]

/-- Witness for C7 at concrete inputs: a module outside the requested set
is dropped, and a surviving module with a file and duration 7 feeds the
pool. -/
theorem c7_module_filtering_witness :
    (moduleDropCheck id ["x"] { filepath := some "y", result := none, tasks := none } = true ∧
      buildLoop id ["x"] ["x"]
        [{ filepath := some "y", result := none, tasks := none }] [] 0
        = buildLoop id ["x"] ["x"] [] [] 0) ∧
    (buildLoop id ["x"] ["x"]
      [{ filepath := some "x", result := some { state := none, duration := some 7 },
         tasks := none }] [] 0).2
      = 0 + specDurationPool id ["x"]
          [{ filepath := some "x", result := some { state := none, duration := some 7 },
             tasks := none }] := by
  constructor
  · have hdrop : moduleDropCheck id ["x"]
        { filepath := some "y", result := none, tasks := none } = true := by
      simp [moduleDropCheck, moduleFileOf]
    exact ⟨hdrop,
      (c7_module_filtering id ["x"] ["x"]
        { filepath := some "y", result := none, tasks := none } [] [] 0).1 hdrop⟩
  · exact (c7_module_filtering id ["x"] ["x"]
      { filepath := some "x", result := some { state := none, duration := some 7 },
        tasks := none } [] [] 0).2.2

/-- Counterexample to C7 as stated: the module with an absent file path,
self-reported duration 120 and an empty task list is not dropped (the
requested set is empty), so the claim requires it to contribute 120 to the
fallback pool, but the code contributes nothing because the duration
accumulation is guarded by the presence of the module file. -/
theorem c7_counterexample :
    moduleDropCheck id []
      { filepath := none, result := some { state := none, duration := some 120 },
        tasks := some [] } = false ∧
    claimC7Pool id []
      [{ filepath := none, result := some { state := none, duration := some 120 },
         tasks := some [] }] = 120 ∧
    (buildLoop id [] []
      [{ filepath := none, result := some { state := none, duration := some 120 },
         tasks := some [] }] [] 0).2 = 0 := by
  refine ⟨rfl, ?_, ?_⟩
  · show (if moduleDropCheck id [] _ then (0 : ℚ) else moduleSelfDuration _) + claimC7Pool id [] [] = 120
    norm_num [moduleDropCheck, moduleFileOf, moduleSelfDuration, claimC7Pool]
  · simp [buildLoop, moduleFileOf, collectTaskResults]

/-! ### Unhandled errors -/

/-- C8: for every sequence of unhandled top-level errors, the summary
builder appends exactly one synthetic failing result per unhandled error —
name `"[unhandled]"`, file the first requested file or the placeholder,
message `formatUnhandledError`, duration 0 — after the flattened results,
inside the normally-built summary rather than as an invocation failure. -/
theorem c8_unhandled_errors_appended (errors : Option (List JSValue)) (rfiles : List String)
    (results : List TestRunResult) (e : JSValue) (resolve : String → String)
    (mods : Option (List VitestModuleResult)) :
    appendUnhandledErrors errors rfiles results
      = results ++ (errors.getD []).map (mkUnhandledResult rfiles) ∧
    mkUnhandledResult rfiles e
      = { name := "[unhandled]", file := rfiles.headD "[vitest]", passed := false,
          message := some (formatUnhandledError e), durationMs := 0 } ∧
    (buildSummaryFromVitest resolve mods errors rfiles).results
      = appendUnhandledErrors errors rfiles
          (buildLoop resolve (rfiles.map resolve) rfiles (mods.getD []) [] 0).1 := by
  refine ⟨?_, rfl, rfl⟩
  rcases errors with _ | es
  · simp [appendUnhandledErrors]
  · rcases es with _ | ⟨e1, es⟩ <;> simp [appendUnhandledErrors]

/-! ### The invocation adapter -/

theorem restoreEnvMarkers_eq (env : EnvState) : restoreEnvMarkers env = env := by
  rcases env with ⟨p, t, s⟩
  rcases p with _ | p <;> rcases t with _ | t <;> rcases s with _ | s <;> rfl

theorem runVitest_failure_summary (w : VitestWorld) (env : EnvState) (files : List String)
    (hf : isEngineFailure w) :
    (runVitest w env files).summary = createFailureSummary files (failureMessageFor w) := by
  obtain ⟨vp, lo, eo, so, se, el, rs⟩ := w
  rcases vp with _ | p
  · rfl
  · rcases lo with e | b
    · rfl
    · rcases b
      · rfl
      · rcases eo with e | ⟨mf, hg, un⟩
        · rfl
        · exfalso
          rcases hf with h | ⟨e, h⟩ | h | ⟨e, h⟩ <;> simp_all

/-- C1: whenever the engine is unavailable, fails to load, lacks the
`startVitest` export, or throws during execution, no error escapes
`runTests`: with a non-empty file list it returns a synthetic failing
summary with exactly one failing result per requested file, each named
`"[vitest provider]"` with `passed = false` and message equal to the
trimmed failure message for that mode (which carries the failure reason
plus any captured stdout/stderr sections); and `createFailureSummary` over
an empty file list produces exactly one such failing result. -/
theorem c1_engine_failure_isolated (w : VitestWorld) (env : EnvState) (files : List String)
    (hne : files ≠ []) (hf : isEngineFailure w) :
    ((runTests w env files).summary.results.length = files.length ∧
     (runTests w env files).summary.passed = 0 ∧
     (runTests w env files).summary.failed = files.length ∧
     (runTests w env files).summary.total = files.length ∧
     ∀ r ∈ (runTests w env files).summary.results,
       r.name = "[vitest provider]" ∧ r.passed = false ∧
       r.message = some (jsTrim (failureMessageFor w))) ∧
    ∀ msg : String,
      (createFailureSummary [] msg).results.length = 1 ∧
      (createFailureSummary [] msg).failed = 1 ∧
      ∀ r ∈ (createFailureSummary [] msg).results,
        r.name = "[vitest provider]" ∧ r.passed = false ∧ r.message = some (jsTrim msg) := by
  have hrun : (runTests w env files).summary
      = createFailureSummary files (failureMessageFor w) := by
    unfold runTests
    rw [if_neg (by simpa using fun h => hne (List.length_eq_zero.mp h))]
    exact runVitest_failure_summary w env files hf
  have hlen : (createFailureSummary files (failureMessageFor w)).results.length
      = files.length := by
    rw [createFailureSummary_results, if_neg hne]
    simp
  constructor
  · refine ⟨by rw [hrun, hlen], by rw [hrun]; rfl, ?_, ?_, ?_⟩
    · rw [hrun, createFailureSummary_failed, hlen]
    · rw [hrun, createFailureSummary_total, hlen]
    · intro r hr
      rw [hrun] at hr
      have := createFailureSummary_mem files (failureMessageFor w) r hr
      exact ⟨this.1, this.2.1, this.2.2.1⟩
  · intro msg
    refine ⟨by rw [createFailureSummary_results]; simp, ?_, ?_⟩
    · rw [createFailureSummary_failed, createFailureSummary_results]
      simp
    · intro r hr
      have := createFailureSummary_mem [] msg r hr
      exact ⟨this.1, this.2.1, this.2.2.1⟩

/-- Witness for C1 at a concrete input: the engine package is not
resolvable and one file is requested. -/
theorem c1_engine_failure_isolated_witness :
    isEngineFailure
      ⟨none, LoadOutcome.loaded true, ExecOutcome.ok [] false [], "", "", 0, id⟩ ∧
    (runTests ⟨none, LoadOutcome.loaded true, ExecOutcome.ok [] false [], "", "", 0, id⟩
      ⟨none, none, none⟩ ["a.test.ts"]).summary.total = 1 := by
  refine ⟨Or.inl rfl, ?_⟩
  have h := c1_engine_failure_isolated
    ⟨none, LoadOutcome.loaded true, ExecOutcome.ok [] false [], "", "", 0, id⟩
    ⟨none, none, none⟩ ["a.test.ts"] (by simp) (Or.inl rfl)
  simpa using h.1.2.2.2.1

/-- C10 (implicit): every failure-mode summary has `durationMs = 0` and
every synthetic result in it has `durationMs = 0` regardless of elapsed
wall-clock time, and the `file` of each synthetic result is the
caller-supplied path verbatim — the result files are exactly the input
list, unresolved (or the placeholder when the list is empty). -/
theorem c10_failure_summary_verbatim (w : VitestWorld) (env : EnvState) (files : List String)
    (hf : isEngineFailure w) :
    (runVitest w env files).summary.durationMs = 0 ∧
    (∀ r ∈ (runVitest w env files).summary.results, r.durationMs = 0) ∧
    (runVitest w env files).summary.results.map TestRunResult.file
      = (if files = [] then ["[vitest]"] else files) := by
  rw [runVitest_failure_summary w env files hf]
  refine ⟨createFailureSummary_durationMs files _, ?_, ?_⟩
  · intro r hr
    exact (createFailureSummary_mem files _ r hr).2.2.2
  · rw [createFailureSummary_results]
    split
    · rfl
    · simp [List.map_map, Function.comp_def]

/-- Witness for C10 at a concrete input: load failure with elapsed time 99
still yields duration 0 and the verbatim relative path. -/
theorem c10_failure_summary_verbatim_witness :
    isEngineFailure
      ⟨some "pkg", LoadOutcome.throws (JSValue.errObj "nope" none),
        ExecOutcome.ok [] false [], "", "", 99, id⟩ ∧
    (runVitest
      ⟨some "pkg", LoadOutcome.throws (JSValue.errObj "nope" none),
        ExecOutcome.ok [] false [], "", "", 99, id⟩
      ⟨none, none, none⟩ ["./rel.test.ts"]).summary.durationMs = 0 ∧
    (runVitest
      ⟨some "pkg", LoadOutcome.throws (JSValue.errObj "nope" none),
        ExecOutcome.ok [] false [], "", "", 99, id⟩
      ⟨none, none, none⟩ ["./rel.test.ts"]).summary.results.map TestRunResult.file
      = ["./rel.test.ts"] := by
  have hf : isEngineFailure
      ⟨some "pkg", LoadOutcome.throws (JSValue.errObj "nope" none),
        ExecOutcome.ok [] false [], "", "", 99, id⟩ :=
    Or.inr (Or.inl ⟨JSValue.errObj "nope" none, rfl⟩)
  have h := c10_failure_summary_verbatim
    ⟨some "pkg", LoadOutcome.throws (JSValue.errObj "nope" none),
      ExecOutcome.ok [] false [], "", "", 99, id⟩
    ⟨none, none, none⟩ ["./rel.test.ts"] hf
  exact ⟨hf, h.1, by simpa using h.2.2⟩

/-- C9: any invocation that reaches the engine call sets the three
process-wide markers to `"vitest"`, the package identity, and the prior
spec value defaulted to the empty string, and on every exit path — success
or thrown execution error — the environment is restored exactly to its
prior state (each marker back to its prior value, or deleted when it was
previously unset). -/
theorem c9_env_markers_restored (w : VitestWorld) (env : EnvState) (files : List String)
    (p : String) (h1 : w.vitestPackage = some p)
    (h2 : w.loadOutcome = LoadOutcome.loaded true) :
    (runVitest w env files).envAfter = env ∧
    (runVitest w env files).envDuringEngineCall = some (setEnvMarkers env) ∧
    setEnvMarkers env
      = { provider := some "vitest",
          testingProvider := some "@webstir-io/vitest-testing",
          spec := some (env.spec.getD "") } := by
  unfold runVitest
  rw [h1, h2]
  rcases hx : w.execOutcome with e | ⟨mf, hg, un⟩ <;>
    exact ⟨restoreEnvMarkers_eq env, rfl, rfl⟩

/-- Witness for C9 at a concrete input: an execution failure restores a
partially-set environment exactly. -/
theorem c9_env_markers_restored_witness :
    (runVitest
      ⟨some "pkg", LoadOutcome.loaded true,
        ExecOutcome.throws (JSValue.str "boom"), "", "", 3, id⟩
      ⟨some "old", none, some "spec-path"⟩ ["a.test.ts"]).envAfter
      = ⟨some "old", none, some "spec-path"⟩ ∧
    setEnvMarkers ⟨some "old", none, some "spec-path"⟩
      = ⟨some "vitest", some "@webstir-io/vitest-testing", some "spec-path"⟩ := by
  have h := c9_env_markers_restored
    ⟨some "pkg", LoadOutcome.loaded true,
      ExecOutcome.throws (JSValue.str "boom"), "", "", 3, id⟩
    ⟨some "old", none, some "spec-path"⟩ ["a.test.ts"] "pkg" rfl rfl
  exact ⟨h.1, h.2.2⟩

/-! ### Duration rollup -/

theorem foldl_add_max_ge {l : List TestRunResult} : ∀ a : ℚ,
    a ≤ l.foldl (fun total r => total + max 0 r.durationMs) a := by
  induction l with
  | nil => intro a; simp
  | cons r rest ih =>
      intro a
      refine le_trans ?_ (ih (a + max 0 r.durationMs))
      have : (0 : ℚ) ≤ max 0 r.durationMs := le_max_left 0 r.durationMs
      linarith

theorem durationFromTests_nonneg (results : List TestRunResult) :
    0 ≤ durationFromTests results :=
  foldl_add_max_ge 0

theorem specDurationPool_nonneg (resolve : String → String) (rset : List String) :
    ∀ mods : List VitestModuleResult, 0 ≤ specDurationPool resolve rset mods := by
  intro mods
  induction mods with
  | nil => simp [specDurationPool]
  | cons m rest ih =>
      unfold specDurationPool
      have hc : (0 : ℚ) ≤
          (if moduleDropCheck resolve rset m then 0
           else if (moduleFileOf resolve m).isSome then moduleSelfDuration m else 0) := by
        split
        · simp
        · split
          · unfold moduleSelfDuration
            split
            · exact le_max_left 0 _
            · simp
          · simp
      linarith

/-- C5: on the success path, the summary's `durationMs` is the sum of the
clamped per-result durations when that sum is positive, otherwise the
accumulated module-level fallback pool when that is positive, otherwise the
elapsed wall-clock time. -/
theorem c5_duration_rollup (w : VitestWorld) (env : EnvState) (files : List String)
    (mods : List VitestModuleResult) (hg : Bool) (un : List JSValue) (p : String)
    (h1 : w.vitestPackage = some p) (h2 : w.loadOutcome = LoadOutcome.loaded true)
    (h3 : w.execOutcome = ExecOutcome.ok mods hg un) :
    (runVitest w env files).summary.durationMs
      = (if 0 < durationFromTests (runVitest w env files).summary.results
         then durationFromTests (runVitest w env files).summary.results
         else if 0 < specDurationPool w.resolve ((files.map w.resolve).map w.resolve) mods
         then specDurationPool w.resolve ((files.map w.resolve).map w.resolve) mods
         else w.elapsedMs) := by
  have hb : runVitest w env files
      = (let summary := buildSummaryFromVitest w.resolve (some mods)
          (some (if hg then un else [])) (files.map w.resolve)
         let finalSummary :=
           if 0 < summary.durationMs then summary
           else { summary with durationMs := w.elapsedMs }
         ⟨finalSummary, restoreEnvMarkers env, some (setEnvMarkers env)⟩) := by
    unfold runVitest
    rw [h1, h2, h3]
  rw [hb]
  simp only []
  set inner := buildSummaryFromVitest w.resolve (some mods)
    (some (if hg then un else [])) (files.map w.resolve) with hinner
  set pool := specDurationPool w.resolve ((files.map w.resolve).map w.resolve) mods with hpooldef
  set final := (if 0 < inner.durationMs then inner
    else { inner with durationMs := w.elapsedMs }) with hfinal
  have hres : final.results = inner.results := by
    rw [hfinal]
    split <;> rfl
  rw [hres]
  have hdur : inner.durationMs
      = (if 0 < durationFromTests inner.results then durationFromTests inner.results
         else pool) := by
    rw [hinner, hpooldef]
    unfold buildSummaryFromVitest
    simp only []
    rw [buildLoop_snd]
    simp
  by_cases hdt : 0 < durationFromTests inner.results
  · have hid : inner.durationMs = durationFromTests inner.results := by
      rw [hdur, if_pos hdt]
    have hfe : final = inner := by
      rw [hfinal, if_pos (by rw [hid]; exact hdt)]
    rw [hfe, hid, if_pos hdt]
  · have hid : inner.durationMs = pool := by
      rw [hdur, if_neg hdt]
    rw [if_neg hdt]
    by_cases hpl : 0 < pool
    · have hfe : final = inner := by
        rw [hfinal, if_pos (by rw [hid]; exact hpl)]
      rw [hfe, hid, if_pos hpl]
    · have hfe : final = { inner with durationMs := w.elapsedMs } := by
        rw [hfinal, if_neg (by rw [hid]; exact hpl)]
      rw [hfe, if_neg hpl]

/-- Witness for C5 at a concrete input: scenario F in miniature — no
per-test durations, a module-level duration of 120, elapsed wall-clock 200;
the summary reports 120. -/
theorem c5_duration_rollup_witness :
    (runVitest
      ⟨some "pkg", LoadOutcome.loaded true,
        ExecOutcome.ok
          [{ filepath := some "a.test.ts",
             result := some { state := none, duration := some 120 }, tasks := some [] }]
          false [],
        "", "", 200, id⟩
      ⟨none, none, none⟩ ["a.test.ts"]).summary.durationMs = 120 := by
  have h := c5_duration_rollup
    ⟨some "pkg", LoadOutcome.loaded true,
      ExecOutcome.ok
        [{ filepath := some "a.test.ts",
           result := some { state := none, duration := some 120 }, tasks := some [] }]
        false [],
      "", "", 200, id⟩
    ⟨none, none, none⟩ ["a.test.ts"]
    [{ filepath := some "a.test.ts",
       result := some { state := none, duration := some 120 }, tasks := some [] }]
    false [] "pkg" rfl rfl rfl
  rw [h]
  have hs1 : (("a.test.ts" : String) = "") = False := eq_false (by decide)
  have hs2 : (("a.test.ts" : String) = "a.test.ts") = True := eq_true rfl
  norm_num [runVitest, buildSummaryFromVitest, buildLoop, collectTaskResults,
    appendUnhandledErrors, moduleFileOf, durationFromTests, specDurationPool,
    moduleDropCheck, moduleSelfDuration, hs1, hs2]

end Webstir
